import Mathlib

/-
Verification of the acquisition-and-cache orchestration engine
(src/python/downloader.py) against its natural-language specification.

The Python module is shallowly embedded: pure helpers become Lean
functions; filesystem and subprocess interactions are represented by
explicit environment records whose fields record, in program order, the
result each runtime check observed (a directory listing, a stat call, a
subprocess exit status, whether an exception was raised).  Raised Python
exceptions that escape a function are modelled with Except.
-/

namespace Downloader

/-- Marker for cut files, constant CUT_FILE_MARKER in the source. -/
def CUT_FILE_MARKER : String := "_cut_"

/-- Number of size samples taken by the stability check,
constant FILE_STABILITY_CHECK_RETRIES in the source. -/
def FILE_STABILITY_CHECK_RETRIES : Nat := 3

/-- Bound on directory-search retries in file discovery,
constant MAX_FILE_FIND_RETRIES in the source. -/
def MAX_FILE_FIND_RETRIES : Nat := 10

/-- Extensions marking incomplete downloads,
constant INCOMPLETE_FILE_EXTENSIONS in the source. -/
def INCOMPLETE_FILE_EXTENSIONS : List String := [".part", ".ytdl"]

/-- Known video extensions probed by the cache lookup,
constant VIDEO_EXTENSIONS in the source. -/
def VIDEO_EXTENSIONS : List String :=
  ["mp4", "webm", "mkv", "m4a", "flv", "avi", "mov"]

/-- Prefix test on character lists. -/
def charListPrefix : List Char → List Char → Bool
  | [], _ => true
  | _ :: _, [] => false
  | p :: ps, c :: cs => p = c && charListPrefix ps cs

/-- Infix (substring) test on character lists. -/
def charListInfix (pat : List Char) : List Char → Bool
  | [] => pat.isEmpty
  | c :: cs => charListPrefix pat (c :: cs) || charListInfix pat cs

/-- Substring test, modelling the Python `in` operator on strings. -/
def strContains (s pat : String) : Bool :=
  charListInfix pat.toList s.toList

/-- Suffix test, modelling Python str.endswith. -/
def strEndsWith (s suffix : String) : Bool :=
  charListPrefix suffix.toList.reverse s.toList.reverse

/-- Prefix test, modelling Python str.startswith / glob prefixes. -/
def strIsPrefixOf (pat s : String) : Bool :=
  charListPrefix pat.toList s.toList

/-- Lower-casing, modelling Python str.lower on the ASCII messages
classified by the download loop. -/
def strToLower (s : String) : String :=
  String.mk (s.toList.map Char.toLower)

/-- Characters removed by the sanitizer regex `[<>:"|?*\x00-\x1f]`.
Note the source regex does not include the path separators / and \. -/
def isDangerousChar (c : Char) : Bool :=
  c ∈ ['<', '>', ':', '\"', '|', '?', '*'] || c.toNat ≤ 31

/-- Characters stripped from both ends by `.strip('. ')`. -/
def isStripChar (c : Char) : Bool :=
  c = '.' || c = ' '

/-- Python `s.strip('. ')`: drop leading and trailing dots and spaces. -/
def stripDotsSpaces (s : String) : String :=
  String.mk (((s.toList.dropWhile isStripChar).reverse.dropWhile isStripChar).reverse)

/-- Embeds YouTubeDownloader._sanitize_video_id.  Removes the regex
character class, strips leading and trailing dots and spaces, and raises
ValueError (modelled as Except.error) when the result is empty. -/
def sanitize_video_id (video_id : String) : Except String String :=
  let sanitized := String.mk (video_id.toList.filter (fun c => !isDangerousChar c))
  let sanitized := stripDotsSpaces sanitized
  if sanitized = "" then
    Except.error "Invalid video ID: empty after sanitization"
  else
    Except.ok sanitized

/-- Embeds YouTubeDownloader._is_cut_file. -/
def is_cut_file (filename : String) : Bool :=
  strContains filename CUT_FILE_MARKER

/-- Embeds YouTubeDownloader._is_incomplete_file:
`filename.endswith(('.part', '.ytdl'))`. -/
def is_incomplete_file (filename : String) : Bool :=
  INCOMPLETE_FILE_EXTENSIONS.any (fun ext => strEndsWith filename ext)

/-- One directory entry: the observed name, whether it is a regular
file, its size in bytes and its modification time. -/
structure FileEntry where
  name : String
  isFile : Bool
  size : Nat
  mtime : Nat
  deriving Repr, DecidableEq

/-- A snapshot of a directory listing. -/
structure DirState where
  entries : List FileEntry
  deriving Repr, DecidableEq

/-- Look a name up in a directory snapshot (Path.exists on temp files). -/
def DirState.lookup (d : DirState) (name : String) : Option FileEntry :=
  d.entries.find? (fun e => e.name = name)

/-- Validity of an entry known to exist: regular file, non-zero size,
no incomplete-download suffix, no cut-file marker (the last four tests
of YouTubeDownloader._is_valid_video_file). -/
def validEntry (e : FileEntry) : Bool :=
  e.isFile && e.size != 0 && !is_incomplete_file e.name && !is_cut_file e.name

/-- Embeds YouTubeDownloader._is_valid_video_file on a directory
snapshot: the file must exist, be a regular file, have non-zero size,
and carry neither the partial-download suffix nor the cut marker. -/
def is_valid_video_file (d : DirState) (name : String) : Bool :=
  match d.lookup name with
  | none => false
  | some e => validEntry e

/-- Sampling loop of _check_file_stability.  `stat i` is the size read
by the i-th stat call (none models OSError / FileNotFoundError).  The
accumulated list mirrors `sizes`; a read failure or a change between the
two most recent samples aborts with none (the early `return False`). -/
def stability_loop (stat : Nat → Option Nat) : Nat → Nat → List Nat → Option (List Nat)
  | _, 0, sizes => some sizes
  | i, k + 1, sizes =>
    match stat i with
    | none => none
    | some s =>
      match sizes.getLast? with
      | some p => if s != p then none else stability_loop stat (i + 1) k (sizes ++ [s])
      | none => stability_loop stat (i + 1) k (sizes ++ [s])

/-- Embeds YouTubeDownloader._check_file_stability.  `ex` is the initial
existence test; after the loop the source returns
`len(sizes) == max_checks and sizes[0] > 0`.  (With max_checks = 0 the
source would raise IndexError on `sizes[0]`; no call site does that, and
the model returns false there.) -/
def check_file_stability (ex : Bool) (stat : Nat → Option Nat)
    (max_checks : Nat := FILE_STABILITY_CHECK_RETRIES) : Bool :=
  if !ex then false
  else
    match stability_loop stat 0 max_checks [] with
    | none => false
    | some sizes =>
      (sizes.length == max_checks) &&
        (match sizes.head? with
         | some s => decide (0 < s)
         | none => false)

/-- Identifier list searched by the cache lookup and file discovery:
the raw identifier first, then the sanitized form when it differs
(sanitization failure keeps just the raw identifier). -/
def search_ids (video_id : String) : List String :=
  match sanitize_video_id video_id with
  | Except.ok s => if s != video_id then [video_id, s] else [video_id]
  | Except.error _ => [video_id]

/-- First maximal element by size: Python `max(files, key=size)` keeps
the earliest element among ties. -/
def max_by_size : List FileEntry → Option FileEntry
  | [] => none
  | e :: rest =>
    match max_by_size rest with
    | none => some e
    | some m => if m.size > e.size then some m else some e

/-- First maximal element by modification time, Python
`max(files, key=mtime)`. -/
def max_by_mtime : List FileEntry → Option FileEntry
  | [] => none
  | e :: rest =>
    match max_by_mtime rest with
    | none => some e
    | some m => if m.mtime > e.mtime then some m else some e

/-- Environment of _get_cached_video_path: the shared temp directory
(path string, existence, a listing snapshot) and the outcome of the
stability check for each file name. -/
structure CacheEnv where
  tempDir : String
  tempDirExists : Bool
  dir : DirState
  stable : String → Bool

/-- Extension-exact probe of the cache lookup: for each known video
extension in order, test `temp_dir / f'{search_id}.{ext}'` for
existence, validity and stability; first hit wins. -/
def exact_match (env : CacheEnv) (sid : String) : List String → Option String
  | [] => none
  | ext :: rest =>
    let name := sid ++ "." ++ ext
    if is_valid_video_file env.dir name && env.stable name then
      some name
    else
      exact_match env sid rest

/-- Prefix-glob candidates of the cache lookup: files matching
`{search_id}.*` that pass the validity filter. -/
def prefix_candidates (env : CacheEnv) (sid : String) : List FileEntry :=
  env.dir.entries.filter (fun e => strIsPrefixOf (sid ++ ".") e.name && validEntry e)

/-- Per-identifier loop of _get_cached_video_path: try the
extension-exact probe, then the prefix glob taking the largest valid
candidate; an unstable candidate falls through to the next identifier. -/
def cache_search (env : CacheEnv) : List String → Option String
  | [] => none
  | sid :: rest =>
    match exact_match env sid VIDEO_EXTENSIONS with
    | some name => some (env.tempDir ++ "/" ++ name)
    | none =>
      match max_by_size (prefix_candidates env sid) with
      | some cand =>
        if env.stable cand.name then some (env.tempDir ++ "/" ++ cand.name)
        else cache_search env rest
      | none => cache_search env rest

/-- Embeds YouTubeDownloader._get_cached_video_path. -/
def get_cached_video_path (env : CacheEnv) (video_id : String) : Option String :=
  if !env.tempDirExists then none
  else cache_search env (search_ids video_id)

/-- Last path component, Python Path(p).name for the paths used here. -/
def baseName (p : String) : String :=
  String.mk ((p.toList.reverse.takeWhile (fun c => c ≠ '/')).reverse)

/-- Environment of _find_downloaded_file.  The directory listing and
stability outcomes are indexed by the retry attempt number, since the
filesystem may change between attempts; the captured completion path is
checked against snapshot 0. -/
structure FindEnv where
  searchDir : String
  dirAt : Nat → DirState
  stableAt : Nat → String → Bool
  tracker : Option String

/-- One directory-search pass of _find_downloaded_file at attempt `t`:
for each identifier, glob `{search_id}*`, keep valid files, take the
most recently modified and test its stability. -/
def find_try_ids (env : FindEnv) (t : Nat) : List String → Option String
  | [] => none
  | sid :: rest =>
    let files := (env.dirAt t).entries.filter (fun e => strIsPrefixOf sid e.name && validEntry e)
    match max_by_mtime files with
    | some cand =>
      if env.stableAt t cand.name then some (env.searchDir ++ "/" ++ cand.name)
      else find_try_ids env t rest
    | none => find_try_ids env t rest

/-- Retry loop of _find_downloaded_file with exponential-backoff sleeps
(the sleeps have no observable effect beyond advancing the attempt
index). -/
def find_loop (env : FindEnv) (ids : List String) (t : Nat) : Nat → Option String
  | 0 => none
  | fuel + 1 =>
    match find_try_ids env t ids with
    | some p => some p
    | none => find_loop env ids (t + 1) fuel

/-- Embeds YouTubeDownloader._find_downloaded_file: prefer the captured
completion path when it exists and passes validity and stability, else
search the directory with bounded retries. -/
def find_downloaded_file (env : FindEnv) (video_id : String)
    (max_retries : Nat := MAX_FILE_FIND_RETRIES) : Option String :=
  let ids := search_ids video_id
  match env.tracker with
  | some p =>
    if ((env.dirAt 0).lookup (baseName p)).isSome &&
        is_valid_video_file (env.dirAt 0) (baseName p) &&
        env.stableAt 0 (baseName p) then
      some p
    else
      find_loop env ids 0 max_retries
  | none => find_loop env ids 0 max_retries

/-- Environment of one cut_video call: the input-file existence test,
the output-path validation outcome, the validated ffmpeg path (none when
validation raised), and the subprocess outcome for a given argument
vector (true = exit 0; false = CalledProcessError, TimeoutExpired,
FileNotFoundError or any other caught exception). -/
structure CutEnv where
  inputExists : Bool
  outputPathOk : Bool
  ffmpegPath : Option String
  run : List String → Bool

/-- Observable behaviour of cut_video: the argument vector handed to
subprocess.run, when an invocation happened at all, and the boolean the
function returned. -/
structure CutTrace where
  invoked : Option (List String)
  success : Bool
  deriving Repr, DecidableEq

/-- Embeds YouTubeDownloader.cut_video.  Mirrors the command
construction of the source: seek before the input under copy mode, the
duration computed as end minus start (or end alone without a start) with
a fail-fast return, and no invocation at all on any validation failure. -/
def cut_video (env : CutEnv) (input_path output_path : String)
    (start_time end_time : Option Int) : CutTrace :=
  if !env.inputExists then { invoked := none, success := false }
  else if !env.outputPathOk then { invoked := none, success := false }
  else
    match env.ffmpegPath with
    | none => { invoked := none, success := false }
    | some ffmpeg_path =>
      let cmd := [ffmpeg_path]
      let cmd := cmd ++ (match start_time with
        | some s => ["-ss", toString s]
        | none => [])
      let cmd := cmd ++ ["-i", input_path, "-c", "copy"]
      match end_time with
      | some e =>
        let duration : Int :=
          match start_time with
          | some s => e - s
          | none => e
        if duration ≤ 0 then { invoked := none, success := false }
        else
          let cmd := cmd ++ ["-t", toString duration]
          let cmd := cmd ++ ["-avoid_negative_ts", "make_zero", output_path, "-y"]
          { invoked := some cmd, success := env.run cmd }
      | none =>
        let cmd := cmd ++ ["-avoid_negative_ts", "make_zero", output_path, "-y"]
        { invoked := some cmd, success := env.run cmd }

/-- Per-range temporary file path used by the stitcher:
`temp_dir / f'{video_id}_section_{index}.mp4'`. -/
def section_path (tempDir video_id : String) (index : Nat) : String :=
  tempDir ++ "/" ++ video_id ++ "_section_" ++ toString index ++ ".mp4"

/-- Concatenation manifest path: `temp_dir / f'{video_id}_concat.txt'`. -/
def concat_path (tempDir video_id : String) : String :=
  tempDir ++ "/" ++ video_id ++ "_concat.txt"

/-- Environment of cut_and_concatenate_sections.  Each per-range
cut_video call observes its own CutEnv; `sectionValidAt i` is the
existence-and-validity verification after range i's trim;
`existsAtCleanup`/`unlinkOk` describe the filesystem during the finally
block (unlinkOk false models an exception that is caught and logged). -/
structure StitchEnv where
  tempDir : String
  inputExists : Bool
  outputPathOk : Bool
  ffmpegPath : Option String
  cutEnvAt : Nat → CutEnv
  sectionValidAt : Nat → Bool
  concatRun : List String → Bool
  outputExistsAfter : Bool
  existsAtCleanup : String → Bool
  unlinkOk : String → Bool
  manifestExistsAtCleanup : Bool
  manifestUnlinkOk : Bool

/-- Observable behaviour of cut_and_concatenate_sections: the returned
boolean, the per-range temporaries recorded in `section_files`, the
deletions attempted by the finally block (path paired with whether the
unlink succeeded), whether the manifest was written, and the attempted
manifest deletion. -/
structure StitchTrace where
  success : Bool
  recorded : List String
  cleanup : List (String × Bool)
  manifestWritten : Bool
  manifestCleanup : Option Bool
  deriving Repr, DecidableEq

/-- Section-cutting loop of cut_and_concatenate_sections: each range is
trimmed into its per-range temporary and verified; any failure stops the
loop, keeping the temporaries recorded so far. -/
def stitch_cut_loop (env : StitchEnv) (input_path video_id : String) :
    List (Option Int × Option Int) → Nat → List String → Bool × List String
  | [], _, acc => (true, acc)
  | (s, e) :: rest, i, acc =>
    let out := section_path env.tempDir video_id i
    if !(cut_video (env.cutEnvAt i) input_path out s e).success then (false, acc)
    else if !env.sectionValidAt i then (false, acc)
    else stitch_cut_loop env input_path video_id rest (i + 1) (acc ++ [out])

/-- Finally block of cut_and_concatenate_sections: attempt to unlink
every recorded per-range temporary that still exists, and the manifest
when it was created and still exists; failures are logged only. -/
def stitch_cleanup (env : StitchEnv) (succ : Bool) (files : List String)
    (manifest : Option String) : StitchTrace :=
  { success := succ
    recorded := files
    cleanup := files.filterMap (fun f =>
      if env.existsAtCleanup f then some (f, env.unlinkOk f) else none)
    manifestWritten := manifest.isSome
    manifestCleanup := manifest.bind (fun _ =>
      if env.manifestExistsAtCleanup then some env.manifestUnlinkOk else none) }

/-- Embeds YouTubeDownloader.cut_and_concatenate_sections.  Validation
failures return before the try block (no cleanup runs, no temporaries
recorded); afterwards every exit path passes through the finally-block
cleanup. -/
def cut_and_concatenate_sections (env : StitchEnv) (input_path : String)
    (sections : List (Option Int × Option Int)) (output_path video_id : String) :
    StitchTrace :=
  if !env.inputExists then
    { success := false, recorded := [], cleanup := [],
      manifestWritten := false, manifestCleanup := none }
  else if !env.outputPathOk then
    { success := false, recorded := [], cleanup := [],
      manifestWritten := false, manifestCleanup := none }
  else
    match env.ffmpegPath with
    | none =>
      { success := false, recorded := [], cleanup := [],
        manifestWritten := false, manifestCleanup := none }
    | some ffmpeg_path =>
      match stitch_cut_loop env input_path video_id sections 0 [] with
      | (false, files) => stitch_cleanup env false files none
      | (true, files) =>
        if !env.concatRun [ffmpeg_path, "-f", "concat", "-safe", "0", "-i",
            concat_path env.tempDir video_id, "-c", "copy", output_path, "-y"] then
          stitch_cleanup env false files (some (concat_path env.tempDir video_id))
        else if !env.outputExistsAfter then
          stitch_cleanup env false files (some (concat_path env.tempDir video_id))
        else stitch_cleanup env true files (some (concat_path env.tempDir video_id))

/-- Video information extracted from YouTube (dataclass VideoInfo). -/
structure VideoInfo where
  id : String
  title : String
  duration : Option Int
  is_live : Bool
  is_scheduled : Bool
  scheduled_start_time : Option String
  thumbnail : Option String
  uploader : Option String
  view_count : Option Int
  upload_date : Option String
  deriving Repr, DecidableEq

/-- Result of a download operation (dataclass DownloadResult). -/
structure DownloadResult where
  success : Bool
  file_path : Option String
  file_size : Option Nat
  error_message : Option String
  video_info : Option VideoInfo
  cached_file_path : Option String := none
  deriving Repr, DecidableEq

/-- Failure result constructor used throughout download_video. -/
def failResult (msg : String) (vi : Option VideoInfo) : DownloadResult :=
  { success := false, file_path := none, file_size := none,
    error_message := some msg, video_info := vi, cached_file_path := none }

/-- Outcome of one ydl.download call for one format selector. -/
inductive AttemptOutcome where
  | success
  | downloadError (msg : String)
  | otherException (msg : String)
  deriving Repr

/-- Exit of the format-selector loop: `broke` on a successful download,
`exhausted` when the selector list ran out, `raised` when an exception
propagated.  Each carries the `last_error` variable (where observable)
and the number of selectors attempted. -/
inductive LoopResult where
  | broke (last_error : Option String) (tried : Nat)
  | exhausted (last_error : Option String) (tried : Nat)
  | raised (msg : String) (tried : Nat)
  deriving Repr, DecidableEq

/-- Message classification for retryable format errors:
`'Requested format is not available' in error_msg or
'format is not available' in error_msg.lower()`. -/
def is_format_unavailable_error (msg : String) : Bool :=
  strContains msg "Requested format is not available" ||
    strContains (strToLower msg) "format is not available"

/-- Message classification for retryable 403 errors:
`'403' in error_msg or 'Forbidden' in error_msg`. -/
def is_forbidden_error (msg : String) : Bool :=
  strContains msg "403" || strContains msg "Forbidden"

/-- Format-selector loop of download_video.  `attempt i` is the outcome
of the download call for the i-th selector.  A DownloadError whose
message signals a format or 403 problem records `last_error` and
continues; any other DownloadError or exception re-raises; a successful
download breaks out of the loop with `last_error` left untouched. -/
def format_selector_loop (attempt : Nat → AttemptOutcome) :
    List String → Nat → Option String → LoopResult
  | [], i, last_error => LoopResult.exhausted last_error i
  | _ :: rest, i, last_error =>
    match attempt i with
    | AttemptOutcome.success => LoopResult.broke last_error (i + 1)
    | AttemptOutcome.downloadError msg =>
      if is_format_unavailable_error msg then
        format_selector_loop attempt rest (i + 1) (some msg)
      else if is_forbidden_error msg then
        format_selector_loop attempt rest (i + 1) (some msg)
      else LoopResult.raised msg (i + 1)
    | AttemptOutcome.otherException msg => LoopResult.raised msg (i + 1)

/-- Ordered format selectors tried by download_video: the caller's
quality string, then the progressively more permissive fallbacks. -/
def format_selectors (quality : String) : List String :=
  [quality,
   "bestvideo+bestaudio/best",
   "best[ext=mp4]/best[ext=webm]/best",
   "best"]

/-- Needs-cut decision of download_video: a nonempty section list, else
a single start or end time. -/
def needs_cut_of (start_time end_time : Option Int)
    (sections : Option (List (Option Int × Option Int))) : Bool :=
  match sections with
  | some l => if l.length > 0 then true else start_time.isSome || end_time.isSome
  | none => start_time.isSome || end_time.isSome

/-- Use-sections decision of download_video. -/
def use_sections_of (sections : Option (List (Option Int × Option Int))) : Bool :=
  match sections with
  | some l => decide (l.length > 0)
  | none => false

/-- Python Path(p).suffix for the simple names used here: the final dot
segment of the last component, empty when the component has no dot
beyond position zero. -/
def pathSuffix (p : String) : String :=
  let name := (baseName p).toList
  let revTail := name.reverse.takeWhile (fun c => c ≠ '.')
  if revTail.length = name.length then ""
  else if revTail.length = 0 then ""
  else if revTail.length + 1 = name.length then ""
  else String.mk ('.' :: revTail.reverse)

/-- Environment of download_video: every filesystem and subprocess
observation the function makes, in program order.  Exception-shaped
fields hold `some detail` when the corresponding call raised.  The
nested cache lookup, file discovery and trim/stitch calls are the
embedded functions above, driven by their own sub-environments. -/
structure DVEnv where
  validateOutputRaises : Option String
  video_info : Option VideoInfo
  cacheEnv : CacheEnv
  cachedExists : Bool
  cachedValid : Bool
  attempt : Nat → AttemptOutcome
  findExc : Option String
  findEnv : FindEnv
  partFilesPresent : Bool
  originalValid : Bool
  isInTemp : Bool
  tempCopyExists : Bool
  tempCopyValid : Bool
  copyTempRaises : Option String
  tempCopyStable : Bool
  originalStable : Bool
  mkdirRaises : Option String
  originalExistsPreCut : Bool
  stitchOk : Bool
  cutOk : Bool
  outputExistsPostCut : Bool
  originalExistsPostCut : Bool
  originalValidPostCut : Bool
  copyOutRaises : Option String
  origExistsEnd : Bool
  origValidEnd : Bool
  finalExists : Bool
  finalIsFile : Bool
  finalSize : Except String Nat

/-- Final verification of download_video (lines after the copy/cut):
recheck the cached asset for the result field, then require the
destination to exist, be a regular file and have non-zero size. -/
def dv_finalize (env : DVEnv) (vi : VideoInfo) (original final_file_path : String) :
    DownloadResult :=
  if !(env.finalExists && env.finalIsFile) then
    failResult "Final output file does not exist" (some vi)
  else
    match env.finalSize with
    | Except.error e => failResult ("Failed to get file size: " ++ e) (some vi)
    | Except.ok file_size =>
      if file_size = 0 then failResult "Final output file is empty" (some vi)
      else
        { success := true, file_path := some final_file_path,
          file_size := some file_size, error_message := none,
          video_info := some vi,
          cached_file_path :=
            if env.origExistsEnd && env.origValidEnd then some original else none }

/-- Copy-or-cut stage of download_video, after the full asset has been
placed (and re-verified) in the temp directory: create the output
directory, run the single cut, the section stitch, or the plain copy,
re-verify the destination and the preserved cache asset after a cut,
then finalize. -/
def dv_process (env : DVEnv) (vi : VideoInfo) (output_path : String)
    (needs_cut use_sections : Bool) (original : String) : DownloadResult :=
  match env.mkdirRaises with
  | some e => failResult ("Failed to create output directory: " ++ e) (some vi)
  | none =>
    if needs_cut then
      if !env.originalExistsPreCut then
        failResult "Original file in temp directory not found before cutting" (some vi)
      else if use_sections then
        if !env.stitchOk then
          failResult "Failed to cut and concatenate video sections" (some vi)
        else if !env.outputExistsPostCut then
          failResult "Video cut completed but output file not found" (some vi)
        else if !(env.originalExistsPostCut && env.originalValidPostCut) then
          failResult "Original file in temp directory was lost after cutting" (some vi)
        else dv_finalize env vi original output_path
      else
        if !env.cutOk then
          failResult "Failed to cut video" (some vi)
        else if !env.outputExistsPostCut then
          failResult "Video cut completed but output file not found" (some vi)
        else if !(env.originalExistsPostCut && env.originalValidPostCut) then
          failResult "Original file in temp directory was lost after cutting" (some vi)
        else dv_finalize env vi original output_path
    else
      match env.copyOutRaises with
      | some e => failResult ("Failed to copy file to requested location: " ++ e) (some vi)
      | none => dv_finalize env vi original output_path

/-- Tail of download_video shared by the cache-hit and download paths:
final validity check of the located asset, placement of the full asset
in the temp directory (copy in when outside, stability check when
already inside), then the copy-or-cut stage. -/
def dv_tail (env : DVEnv) (vi : VideoInfo) (output_path : String)
    (needs_cut use_sections : Bool) (original0 : String) : DownloadResult :=
  if !env.originalValid then
    failResult "Downloaded file is invalid or incomplete" (some vi)
  else if !env.isInTemp then
    if env.tempCopyExists && env.tempCopyValid then
      dv_process env vi output_path needs_cut use_sections
        (env.cacheEnv.tempDir ++ "/" ++ vi.id ++ pathSuffix original0)
    else
      match env.copyTempRaises with
      | some e =>
        failResult ("Failed to store full video in temp directory: " ++ e) (some vi)
      | none =>
        if !env.tempCopyStable then
          failResult "Failed to store full video in temp directory" (some vi)
        else
          dv_process env vi output_path needs_cut use_sections
            (env.cacheEnv.tempDir ++ "/" ++ vi.id ++ pathSuffix original0)
  else
    if !env.originalStable then
      failResult "Full video file in temp directory is not stable" (some vi)
    else dv_process env vi output_path needs_cut use_sections original0

/-- Embeds YouTubeDownloader.download_video.  Except.error models an
exception escaping the function (the re-raise inside the
format-selector loop is not caught anywhere in it).  The quality string
seeds the format-selector list; live-stream flags only alter the
options dict handed to the external service and are absorbed by the
attempt oracle. -/
def download_video (env : DVEnv) (output_path quality : String)
    (start_time end_time : Option Int)
    (sections : Option (List (Option Int × Option Int))) :
    Except String DownloadResult :=
  match env.validateOutputRaises with
  | some e => Except.ok (failResult ("Invalid output path: " ++ e) none)
  | none =>
    match env.video_info with
    | none => Except.ok (failResult "Failed to extract video information" none)
    | some vi =>
      match sanitize_video_id vi.id with
      | Except.error e => Except.ok (failResult ("Invalid video ID: " ++ e) (some vi))
      | Except.ok _ =>
        match get_cached_video_path env.cacheEnv vi.id with
        | some cached_video_path =>
          if !(env.cachedExists && env.cachedValid) then
            Except.ok (failResult "Cached video file not found or invalid" (some vi))
          else
            Except.ok (dv_tail env vi output_path
              (needs_cut_of start_time end_time sections)
              (use_sections_of sections) cached_video_path)
        | none =>
          match format_selector_loop env.attempt (format_selectors quality) 0 none with
          | LoopResult.raised msg _ => Except.error msg
          | LoopResult.broke last_error _ | LoopResult.exhausted last_error _ =>
            match last_error with
            | some e =>
              Except.ok (failResult ("All format selectors failed. Last error: " ++ e) (some vi))
            | none =>
              match env.findExc with
              | some e =>
                Except.ok (failResult ("Error finding downloaded file: " ++ e) (some vi))
              | none =>
                match find_downloaded_file env.findEnv vi.id MAX_FILE_FIND_RETRIES with
                | none =>
                  if env.partFilesPresent then
                    Except.ok (failResult
                      "Download incomplete - only .part file found. The download may have been interrupted."
                      (some vi))
                  else
                    Except.ok (failResult
                      "Download completed but file not found after waiting" (some vi))
                | some found_file =>
                  Except.ok (dv_tail env vi output_path
                    (needs_cut_of start_time end_time sections)
                    (use_sections_of sections) found_file)

/-- Retryable download outcome: a DownloadError whose message the loop
classifies as format-unavailable or forbidden, making it continue. -/
def retryable_outcome (o : AttemptOutcome) : Prop :=
  ∃ m, o = AttemptOutcome.downloadError m ∧
    (is_format_unavailable_error m = true ∨ is_forbidden_error m = true)

/-- Example metadata record used by the concrete scenarios. -/
def viEx : VideoInfo :=
  { id := "vid", title := "title", duration := none, is_live := false,
    is_scheduled := false, scheduled_start_time := none, thumbnail := none,
    uploader := none, view_count := none, upload_date := none }

/-- Empty shared temp directory: every cache lookup misses. -/
def emptyCacheEnv : CacheEnv :=
  { tempDir := "/tmp", tempDirExists := true, dir := ⟨[]⟩, stable := fun _ => true }

/-- Temp directory holding one stable cached asset vid.mp4. -/
def cacheEnvHit : CacheEnv :=
  { tempDir := "/tmp", tempDirExists := true,
    dir := ⟨[{ name := "vid.mp4", isFile := true, size := 5, mtime := 0 }]⟩,
    stable := fun _ => true }

/-- File-discovery environment over an empty directory. -/
def findEnvEx : FindEnv :=
  { searchDir := "/tmp", dirAt := fun _ => ⟨[]⟩, stableAt := fun _ _ => true,
    tracker := none }

/-- Fully healthy download_video environment with a cache hit: every
filesystem observation succeeds. -/
def dvEnvHappy : DVEnv :=
  { validateOutputRaises := none
    video_info := some viEx
    cacheEnv := cacheEnvHit
    cachedExists := true
    cachedValid := true
    attempt := fun _ => AttemptOutcome.success
    findExc := none
    findEnv := findEnvEx
    partFilesPresent := false
    originalValid := true
    isInTemp := true
    tempCopyExists := true
    tempCopyValid := true
    copyTempRaises := none
    tempCopyStable := true
    originalStable := true
    mkdirRaises := none
    originalExistsPreCut := true
    stitchOk := true
    cutOk := true
    outputExistsPostCut := true
    originalExistsPostCut := true
    originalValidPostCut := true
    copyOutRaises := none
    origExistsEnd := true
    origValidEnd := true
    finalExists := true
    finalIsFile := true
    finalSize := Except.ok 5 }

/-- Download outcomes where the first three format selectors fail with
the format-unavailable DownloadError and the fourth succeeds. -/
def attemptC1 : Nat → AttemptOutcome := fun i =>
  if i < 3 then AttemptOutcome.downloadError "Requested format is not available"
  else AttemptOutcome.success

/-- Cache-miss download environment with the attemptC1 outcomes. -/
def dvEnvC1 : DVEnv := { dvEnvHappy with cacheEnv := emptyCacheEnv, attempt := attemptC1 }

/-- Download outcomes where every attempt fails with a DownloadError
that is neither format-unavailable nor forbidden. -/
def attemptC3 : Nat → AttemptOutcome := fun _ =>
  AttemptOutcome.downloadError "Private video"

/-- Cache-miss download environment with the attemptC3 outcomes. -/
def dvEnvC3 : DVEnv := { dvEnvHappy with cacheEnv := emptyCacheEnv, attempt := attemptC3 }

/-- Cache with two stable valid prefix-glob candidates for "vid" and no
extension-exact match: vid.foo is larger, vid.bar more recent. -/
def cacheEnvC4 : CacheEnv :=
  { tempDir := "/tmp", tempDirExists := true,
    dir := ⟨[{ name := "vid.foo", isFile := true, size := 100, mtime := 1 },
             { name := "vid.bar", isFile := true, size := 50, mtime := 99 }]⟩,
    stable := fun _ => true }

/-- Cache with two stable valid extension-exact candidates for "vid":
vid.webm is far larger, but mp4 precedes webm in the fixed extension
list probed by the cache lookup. -/
def cacheEnvC4b : CacheEnv :=
  { tempDir := "/tmp", tempDirExists := true,
    dir := ⟨[{ name := "vid.mp4", isFile := true, size := 5, mtime := 1 },
             { name := "vid.webm", isFile := true, size := 100, mtime := 2 }]⟩,
    stable := fun _ => true }

/-- Trimmer environment where validation passes and ffmpeg exits 0. -/
def cutEnvOk : CutEnv :=
  { inputExists := true, outputPathOk := true, ffmpegPath := some "ffmpeg",
    run := fun _ => true }

/-- Trimmer environment where validation passes but ffmpeg fails. -/
def cutEnvFail : CutEnv :=
  { inputExists := true, outputPathOk := true, ffmpegPath := some "ffmpeg",
    run := fun _ => false }

/-- Stitcher environment: range 0 trims fine, range 1's ffmpeg run
fails; every temp path is observed to exist during cleanup. -/
def stitchEnvCE : StitchEnv :=
  { tempDir := "/tmp", inputExists := true, outputPathOk := true,
    ffmpegPath := some "ffmpeg",
    cutEnvAt := fun i => if i = 0 then cutEnvOk else cutEnvFail,
    sectionValidAt := fun _ => true,
    concatRun := fun _ => true, outputExistsAfter := true,
    existsAtCleanup := fun _ => true, unlinkOk := fun _ => true,
    manifestExistsAtCleanup := true, manifestUnlinkOk := true }

/-- Two trim ranges handed to the stitcher scenarios. -/
def sectionsTwo : List (Option Int × Option Int) :=
  [(some 0, some 10), (some 20, some 30)]

/-- Claim C5.  The sanitizer's regex character class omits the path
separators / and \, so sanitizing "../malicious" keeps the forward
slash: the output "/malicious" still contains a path-separator
character, contradicting the claim that for every input containing path
separators the output contains none. -/
theorem c5_sanitizer_keeps_path_separator :
    sanitize_video_id "../malicious" = Except.ok "/malicious"
    ∧ '/' ∈ "../malicious".toList
    ∧ '/' ∈ "/malicious".toList
    ∧ sanitize_video_id "a/b" = Except.ok "a/b" := by
  refine ⟨by rfl, by decide, by decide, by rfl⟩

/-- Claim C1.  With a cache miss, the first three format selectors
failing with the format-unavailable DownloadError and the fourth
succeeding, the loop does attempt all four selectors in order and
breaks on the fourth (LoopResult.broke with tried = 4), but
download_video then returns success = false with the message
"All format selectors failed. Last error: ..." because last_error is
never cleared before the post-loop check: the claimed success = true
result is not produced. -/
theorem c1_format_fallback_bug :
    format_selector_loop attemptC1 (format_selectors "q") 0 none =
      LoopResult.broke (some "Requested format is not available") 4
    ∧ download_video dvEnvC1 "/out/v.mp4" "q" none none none =
        Except.ok (failResult
          "All format selectors failed. Last error: Requested format is not available"
          (some viEx)) := by
  refine ⟨by decide, by rfl⟩

/-- Claim C3 (counterexample).  A DownloadError that is neither
format-unavailable nor forbidden on the very first preference makes the
loop re-raise after exactly one attempt, and the exception escapes
download_video (Except.error) instead of surfacing as a terminal
failure DownloadResult as the claim states. -/
theorem c3_counterexample :
    format_selector_loop attemptC3 (format_selectors "q") 0 none =
      LoopResult.raised "Private video" 1
    ∧ download_video dvEnvC3 "/out/v.mp4" "q" none none none =
        Except.error "Private video" := by
  refine ⟨by decide, by rfl⟩

/-- Claim C2 (counterexample).  With a cache hit, no trimming and every
final check passing, download_video reports success = true for the
destination "/out/clip.part" even though that path ends in the
partial-download marker: the final verification never tests the
destination path for partial markers. -/
theorem c2_counterexample :
    download_video dvEnvHappy "/out/clip.part" "best" none none none =
      Except.ok
        { success := true, file_path := some "/out/clip.part",
          file_size := some 5, error_message := none,
          video_info := some viEx, cached_file_path := some "/tmp/vid.mp4" }
    ∧ is_incomplete_file "/out/clip.part" = true := by
  refine ⟨by rfl, by decide⟩

/-- Claim C4 (counterexample).  Both preference clauses of the claim
fail on the code.  Prefix half: with no extension-exact match and two
valid stable prefix-glob candidates, the cache lookup returns the
largest candidate (vid.foo, size 100, mtime 1), not the most recently
modified one (vid.bar, size 50, mtime 99) the claim announces.
Extension-exact half: with two valid stable extension-exact candidates,
it returns the first in the fixed extension-list order (vid.mp4,
size 5), not the largest one (vid.webm, size 100) the claim announces. -/
theorem c4_counterexample :
    get_cached_video_path cacheEnvC4 "vid" = some "/tmp/vid.foo"
    ∧ get_cached_video_path cacheEnvC4 "vid" ≠ some "/tmp/vid.bar"
    ∧ (∀ e ∈ cacheEnvC4.dir.entries, validEntry e = true ∧ cacheEnvC4.stable e.name = true)
    ∧ (∃ e1 ∈ cacheEnvC4.dir.entries, ∃ e2 ∈ cacheEnvC4.dir.entries,
        e1.name = "vid.foo" ∧ e2.name = "vid.bar" ∧ e1.mtime < e2.mtime)
    ∧ get_cached_video_path cacheEnvC4b "vid" = some "/tmp/vid.mp4"
    ∧ get_cached_video_path cacheEnvC4b "vid" ≠ some "/tmp/vid.webm"
    ∧ (∀ e ∈ cacheEnvC4b.dir.entries, validEntry e = true ∧ cacheEnvC4b.stable e.name = true)
    ∧ (∃ e1 ∈ cacheEnvC4b.dir.entries, ∃ e2 ∈ cacheEnvC4b.dir.entries,
        e1.name = "vid.mp4" ∧ e2.name = "vid.webm" ∧ e1.size < e2.size) := by
  refine ⟨by decide, by decide, by decide, by decide, by decide, by decide,
    by decide, by decide⟩

/-- Claim C7 (counterexample).  Two ranges, range 1's ffmpeg run fails
after range 0 was cut: the stitcher reports failure and unlinks range
0's temporary, but the range-1 temporary - observed to exist during the
finally block - is never in the attempted deletions, because only
temporaries recorded after a fully successful and validated trim are
cleaned up. -/
theorem c7_counterexample :
    cut_and_concatenate_sections stitchEnvCE "/tmp/full.mp4" sectionsTwo "/out/o.mp4" "vid" =
      { success := false, recorded := ["/tmp/vid_section_0.mp4"],
        cleanup := [("/tmp/vid_section_0.mp4", true)],
        manifestWritten := false, manifestCleanup := none }
    ∧ stitchEnvCE.existsAtCleanup "/tmp/vid_section_1.mp4" = true
    ∧ ¬ (∃ b, ("/tmp/vid_section_1.mp4", b) ∈
        (cut_and_concatenate_sections stitchEnvCE "/tmp/full.mp4" sectionsTwo
          "/out/o.mp4" "vid").cleanup) := by
  refine ⟨by decide, by decide, by decide⟩

/-- Characterizes the sampling loop: starting from an accumulator whose
last sample is p, it completes iff every remaining stat call returns p,
appending exactly the sampled values. -/
theorem stability_loop_spec (stat : Nat → Option Nat) (p : Nat) :
    ∀ (k i : Nat) (acc : List Nat), acc.getLast? = some p →
      ∀ l, (stability_loop stat i k acc = some l ↔
        ((∀ j, j < k → stat (i + j) = some p) ∧ l = acc ++ List.replicate k p)) := by
  intro k
  induction k with
  | zero =>
    intro i acc _ l
    simp [stability_loop, eq_comm]
  | succ k ih =>
    intro i acc hacc l
    rcases hstat : stat i with _ | s
    · simp only [stability_loop, hstat]
      constructor
      · intro h; exact absurd h (by simp)
      · rintro ⟨h, -⟩
        have h0 := h 0 (by omega)
        rw [Nat.add_zero, hstat] at h0
        exact absurd h0 (by simp)
    · by_cases hsp : s = p
      · subst hsp
        have hstep : stability_loop stat i (k + 1) acc =
            stability_loop stat (i + 1) k (acc ++ [s]) := by
          simp [stability_loop, hstat, hacc]
        rw [hstep, ih (i + 1) (acc ++ [s]) (by simp) l]
        constructor
        · rintro ⟨hall, hl⟩
          refine ⟨?_, ?_⟩
          · intro j hj
            match j with
            | 0 => simpa using hstat
            | Nat.succ j' =>
              have hidx : i + (j' + 1) = i + 1 + j' := by omega
              rw [hidx]
              exact hall j' (by omega)
          · rw [hl, List.append_assoc]
            simp [List.replicate_succ]
        · rintro ⟨hall, hl⟩
          refine ⟨?_, ?_⟩
          · intro j hj
            have hidx : i + 1 + j = i + (j + 1) := by omega
            rw [hidx]
            exact hall (j + 1) (by omega)
          · rw [hl, List.append_assoc]
            simp [List.replicate_succ]
      · have hstep : stability_loop stat i (k + 1) acc = none := by
          simp only [stability_loop, hstat, hacc]
          simp [bne_iff_ne, hsp]
        rw [hstep]
        constructor
        · intro h; exact absurd h (by simp)
        · rintro ⟨h, -⟩
          have h0 := h 0 (by omega)
          rw [Nat.add_zero, hstat] at h0
          exact absurd (Option.some.inj h0) hsp

/-- Full characterization of the stability check with at least one
sample: true exactly when the file exists and every one of the n stat
calls returned the same strictly positive size. -/
theorem check_file_stability_iff (ex : Bool) (stat : Nat → Option Nat) (n : Nat)
    (hn : 0 < n) :
    (check_file_stability ex stat n = true ↔
      ex = true ∧ ∃ s, 0 < s ∧ ∀ i, i < n → stat i = some s) := by
  obtain ⟨m, rfl⟩ : ∃ m, n = m + 1 := ⟨n - 1, by omega⟩
  rcases ex with _ | _
  · simp [check_file_stability]
  · rcases hs0 : stat 0 with _ | s
    · have hloop : stability_loop stat 0 (m + 1) [] = none := by
        simp [stability_loop, hs0]
      simp only [check_file_stability, hloop, Bool.not_true]
      constructor
      · intro h; exact absurd h (by simp)
      · rintro ⟨-, s, -, hall⟩
        have := hall 0 (by omega)
        rw [hs0] at this
        exact absurd this (by simp)
    · have hstep : stability_loop stat 0 (m + 1) [] =
          stability_loop stat 1 m [s] := by
        simp [stability_loop, hs0]
      rcases hloop : stability_loop stat 1 m [s] with _ | l
      · have hnone : ¬ ((∀ j, j < m → stat (1 + j) = some s) ∧
            ([s] ++ List.replicate m s = [s] ++ List.replicate m s)) := by
          rintro ⟨hall, -⟩
          have := (stability_loop_spec stat s m 1 [s] (by simp)
            ([s] ++ List.replicate m s)).mpr ⟨hall, rfl⟩
          rw [hloop] at this
          exact absurd this (by simp)
        simp only [check_file_stability, hstep, hloop, Bool.not_true]
        constructor
        · intro h; exact absurd h (by simp)
        · rintro ⟨-, t, -, hall⟩
          have ht0 := hall 0 (by omega)
          rw [hs0] at ht0
          obtain rfl : s = t := Option.some.inj ht0
          refine absurd ?_ hnone
          refine ⟨?_, rfl⟩
          intro j hj
          exact hall (1 + j) (by omega)
      · obtain ⟨hall, hl⟩ :=
          (stability_loop_spec stat s m 1 [s] (by simp) l).mp hloop
        have hlen : l.length = m + 1 := by simp [hl]
        have hhead : l.head? = some s := by
          rw [hl]; rfl
        simp only [check_file_stability, hstep, hloop, Bool.not_true, hhead, hlen]
        simp only [beq_self_eq_true, Bool.true_and]
        constructor
        · intro hpos
          refine ⟨by trivial, s, by simpa using hpos, ?_⟩
          intro i hi
          match i with
          | 0 => exact hs0
          | Nat.succ j =>
            have hidx : Nat.succ j = 1 + j := by omega
            rw [hidx]
            exact hall j (by omega)
        · rintro ⟨-, t, htpos, hallt⟩
          have ht0 := hallt 0 (by omega)
          rw [hs0] at ht0
          obtain rfl : s = t := Option.some.inj ht0
          simpa using htpos

/-- Claim C8.  The stability check returns false when every sample is
the zero size, false when two sampled sizes differ, false when any size
read fails, and returns true exactly when the file exists and all of
the fixed number of samples are equal and strictly positive. -/
theorem c8_stability_verifier (ex : Bool) (stat : Nat → Option Nat) (n : Nat)
    (hn : 0 < n) :
    ((∀ i, i < n → stat i = some 0) → check_file_stability ex stat n = false)
    ∧ ((∃ i j a b, i < n ∧ j < n ∧ stat i = some a ∧ stat j = some b ∧ a ≠ b) →
        check_file_stability ex stat n = false)
    ∧ ((∃ j, j < n ∧ stat j = none) → check_file_stability ex stat n = false)
    ∧ (check_file_stability ex stat n = true ↔
        ex = true ∧ ∃ s, 0 < s ∧ ∀ i, i < n → stat i = some s) := by
  refine ⟨?_, ?_, ?_, check_file_stability_iff ex stat n hn⟩
  · intro h0
    rcases hb : check_file_stability ex stat n with _ | _
    · rfl
    · exfalso
      obtain ⟨-, s, hs, hall⟩ := (check_file_stability_iff ex stat n hn).mp hb
      have := hall 0 hn
      rw [h0 0 hn] at this
      obtain rfl : (0 : Nat) = s := Option.some.inj this
      exact absurd hs (by omega)
  · rintro ⟨i, j, a, b, hi, hj, ha, hb2, hab⟩
    rcases hb : check_file_stability ex stat n with _ | _
    · rfl
    · exfalso
      obtain ⟨-, s, -, hall⟩ := (check_file_stability_iff ex stat n hn).mp hb
      have hia := hall i hi
      have hjb := hall j hj
      rw [ha] at hia
      rw [hb2] at hjb
      obtain rfl : a = s := Option.some.inj hia
      obtain rfl : b = a := Option.some.inj hjb
      exact hab rfl
  · rintro ⟨j, hj, hnone⟩
    rcases hb : check_file_stability ex stat n with _ | _
    · rfl
    · exfalso
      obtain ⟨-, s, -, hall⟩ := (check_file_stability_iff ex stat n hn).mp hb
      have := hall j hj
      rw [hnone] at this
      exact absurd this (by simp)

/-- Witness for C8 at a concrete trace: three equal positive samples of
an existing file make the check return true. -/
theorem c8_stability_verifier_witness :
    (0 : Nat) < 3 ∧ check_file_stability true (fun _ => some 5) 3 = true := by
  refine ⟨by decide, ?_⟩
  exact (c8_stability_verifier true (fun _ => some 5) 3 (by decide)).2.2.2.mpr
    ⟨rfl, 5, by decide, fun i _ => rfl⟩

/-- Claim C6.  With validation passing, the trimmer computes the
duration as end minus start (or end alone without a start) and returns
failure without any tool invocation whenever that value is not strictly
positive; with start 10 and end 30 it invokes with duration argument
"20"; with neither bound it invokes without seek or duration flags. -/
theorem c6_trimmer_duration (env : CutEnv) (inp out fp : String)
    (hIn : env.inputExists = true) (hOut : env.outputPathOk = true)
    (hF : env.ffmpegPath = some fp) :
    (∀ s e : Int, e - s ≤ 0 →
      cut_video env inp out (some s) (some e) = { invoked := none, success := false })
    ∧ (∀ e : Int, e ≤ 0 →
      cut_video env inp out none (some e) = { invoked := none, success := false })
    ∧ (∀ s e : Int, 0 < e - s →
      (cut_video env inp out (some s) (some e)).invoked =
        some [fp, "-ss", toString s, "-i", inp, "-c", "copy", "-t", toString (e - s),
          "-avoid_negative_ts", "make_zero", out, "-y"])
    ∧ (cut_video env inp out (some 10) (some 30)).invoked =
        some [fp, "-ss", "10", "-i", inp, "-c", "copy", "-t", "20",
          "-avoid_negative_ts", "make_zero", out, "-y"]
    ∧ (cut_video env inp out none none).invoked =
        some [fp, "-i", inp, "-c", "copy", "-avoid_negative_ts", "make_zero", out, "-y"] := by
  refine ⟨?_, ?_, ?_, ?_, ?_⟩
  · intro s e h
    simp [cut_video, hIn, hOut, hF, h]
  · intro e h
    simp [cut_video, hIn, hOut, hF, h]
  · intro s e h
    have hne : ¬ (e - s ≤ 0) := by omega
    simp [cut_video, hIn, hOut, hF, hne]
  · simp [cut_video, hIn, hOut, hF]
    decide
  · simp [cut_video, hIn, hOut, hF]

/-- Witness for C6 at concrete arguments: start 30 and end 10 fail fast
without invoking, and start 10 with end 30 passes duration "20". -/
theorem c6_trimmer_duration_witness :
    cut_video cutEnvOk "in.mp4" "out.mp4" (some 30) (some 10) =
      { invoked := none, success := false }
    ∧ (cut_video cutEnvOk "in.mp4" "out.mp4" (some 10) (some 30)).invoked =
        some ["ffmpeg", "-ss", "10", "-i", "in.mp4", "-c", "copy", "-t", "20",
          "-avoid_negative_ts", "make_zero", "out.mp4", "-y"] := by
  have h := c6_trimmer_duration cutEnvOk "in.mp4" "out.mp4" "ffmpeg" rfl rfl rfl
  exact ⟨h.1 30 10 (by decide), h.2.2.2.1⟩

/-- Projections of the finally-block cleanup record. -/
theorem stitch_cleanup_success (env : StitchEnv) (succ : Bool) (files : List String)
    (manifest : Option String) :
    (stitch_cleanup env succ files manifest).success = succ := rfl

/-- Every recorded temporary observed to exist during the finally block
gets a deletion attempt with the unlink outcome the environment gives. -/
theorem stitch_cleanup_mem (env : StitchEnv) (succ : Bool) (files : List String)
    (manifest : Option String) (f : String) (hf : f ∈ files)
    (hex : env.existsAtCleanup f = true) :
    (f, env.unlinkOk f) ∈ (stitch_cleanup env succ files manifest).cleanup := by
  simp only [stitch_cleanup, List.mem_filterMap]
  exact ⟨f, hf, by simp [hex]⟩

/-- The manifest deletion is attempted whenever the manifest was created
and still exists during the finally block. -/
theorem stitch_cleanup_manifest (env : StitchEnv) (succ : Bool) (files : List String)
    (m : String) (hm : env.manifestExistsAtCleanup = true) :
    (stitch_cleanup env succ files (some m)).manifestCleanup =
      some env.manifestUnlinkOk := by
  simp [stitch_cleanup, hm]

/-- The section-cutting loop never consults the unlink oracles. -/
theorem stitch_cut_loop_unlink_congr (env : StitchEnv) (g : String → Bool) (b : Bool)
    (input vid : String) :
    ∀ (sections : List (Option Int × Option Int)) (i : Nat) (acc : List String),
      stitch_cut_loop { env with unlinkOk := g, manifestUnlinkOk := b }
        input vid sections i acc =
      stitch_cut_loop env input vid sections i acc := by
  intro sections
  induction sections with
  | nil => intro i acc; rfl
  | cons hd tl ih =>
    intro i acc
    obtain ⟨s, e⟩ := hd
    simp only [stitch_cut_loop, ih]

/-- Every produced result is either the pre-try validation failure with
nothing recorded, or passes through the finally-block cleanup. -/
theorem stitch_result_cases (env : StitchEnv) (input output vid : String)
    (sections : List (Option Int × Option Int)) :
    (cut_and_concatenate_sections env input sections output vid =
      { success := false, recorded := [], cleanup := [],
        manifestWritten := false, manifestCleanup := none })
    ∨ (∃ succ files manifest,
        cut_and_concatenate_sections env input sections output vid =
          stitch_cleanup env succ files manifest) := by
  unfold cut_and_concatenate_sections
  split
  · left; rfl
  · split
    · left; rfl
    · split
      · left; rfl
      · split
        · right; exact ⟨_, _, _, rfl⟩
        · split
          · right; exact ⟨_, _, _, rfl⟩
          · split
            · right; exact ⟨_, _, _, rfl⟩
            · right; exact ⟨_, _, _, rfl⟩

/-- The returned boolean of the stitcher as a function of everything
except the unlink oracles. -/
theorem stitch_success_eq (env : StitchEnv) (input output vid : String)
    (sections : List (Option Int × Option Int)) :
    (cut_and_concatenate_sections env input sections output vid).success =
      (if !env.inputExists then false
       else if !env.outputPathOk then false
       else match env.ffmpegPath with
       | none => false
       | some fp =>
         match stitch_cut_loop env input vid sections 0 [] with
         | (false, _) => false
         | (true, _) =>
           if !env.concatRun [fp, "-f", "concat", "-safe", "0", "-i",
               concat_path env.tempDir vid, "-c", "copy", output, "-y"] then false
           else if !env.outputExistsAfter then false
           else true) := by
  unfold cut_and_concatenate_sections
  repeat' split
  all_goals simp_all [stitch_cleanup_success]

/-- Claim C7 (amended).  The stitcher always attempts to delete every
per-range temporary it recorded (one per successfully trimmed and
validated range) that still exists during the finally block, and the
manifest whenever it was created and still exists; the unlink outcomes
never influence the returned boolean. -/
theorem c7_stitcher_cleanup (env : StitchEnv) (input output vid : String)
    (sections : List (Option Int × Option Int)) :
    (∀ f, f ∈ (cut_and_concatenate_sections env input sections output vid).recorded →
        env.existsAtCleanup f = true →
        (f, env.unlinkOk f) ∈
          (cut_and_concatenate_sections env input sections output vid).cleanup)
    ∧ ((cut_and_concatenate_sections env input sections output vid).manifestWritten = true →
        env.manifestExistsAtCleanup = true →
        (cut_and_concatenate_sections env input sections output vid).manifestCleanup =
          some env.manifestUnlinkOk)
    ∧ (∀ (g : String → Bool) (b : Bool),
        (cut_and_concatenate_sections { env with unlinkOk := g, manifestUnlinkOk := b }
          input sections output vid).success =
        (cut_and_concatenate_sections env input sections output vid).success) := by
  refine ⟨?_, ?_, ?_⟩
  · intro f hf hex
    rcases stitch_result_cases env input output vid sections with h | ⟨succ, files, manifest, h⟩
    · rw [h] at hf
      exact absurd hf (by simp)
    · rw [h] at hf ⊢
      have hfiles : f ∈ files := by
        simpa [stitch_cleanup] using hf
      exact stitch_cleanup_mem env succ files manifest f hfiles hex
  · intro hw hm
    rcases stitch_result_cases env input output vid sections with h | ⟨succ, files, manifest, h⟩
    · rw [h] at hw
      exact absurd hw (by simp)
    · rw [h] at hw ⊢
      rcases manifest with _ | m
      · exact absurd hw (by simp [stitch_cleanup])
      · exact stitch_cleanup_manifest env succ files m hm
  · intro g b
    rw [stitch_success_eq, stitch_success_eq,
      stitch_cut_loop_unlink_congr env g b input vid sections 0 []]

/-- Witness for C7: in the two-range scenario where range 1's trim
fails, the stitcher reports failure yet still attempts the deletion of
range 0's temporary, and replacing the unlink outcomes leaves the
returned boolean unchanged. -/
theorem c7_stitcher_cleanup_witness :
    ("/tmp/vid_section_0.mp4",
        stitchEnvCE.unlinkOk "/tmp/vid_section_0.mp4") ∈
      (cut_and_concatenate_sections stitchEnvCE "/tmp/full.mp4" sectionsTwo
        "/out/o.mp4" "vid").cleanup
    ∧ (cut_and_concatenate_sections
        { stitchEnvCE with unlinkOk := fun _ => false, manifestUnlinkOk := false }
        "/tmp/full.mp4" sectionsTwo "/out/o.mp4" "vid").success =
      (cut_and_concatenate_sections stitchEnvCE "/tmp/full.mp4" sectionsTwo
        "/out/o.mp4" "vid").success := by
  have h := c7_stitcher_cleanup stitchEnvCE "/tmp/full.mp4" "/out/o.mp4" "vid" sectionsTwo
  exact ⟨h.1 "/tmp/vid_section_0.mp4" (by decide) (by decide),
    h.2.2 (fun _ => false) false⟩

/-- The size-maximum helper returns a list member that dominates every
member by size (first maximal element, like Python max). -/
theorem max_by_size_spec :
    ∀ (l : List FileEntry) (c : FileEntry), max_by_size l = some c →
      c ∈ l ∧ ∀ e ∈ l, e.size ≤ c.size := by
  intro l
  induction l with
  | nil => intro c h; exact absurd h (by simp [max_by_size])
  | cons e rest ih =>
    intro c h
    rcases hm : max_by_size rest with _ | m
    · simp only [max_by_size, hm] at h
      obtain rfl := Option.some.inj h
      have hrest : rest = [] := by
        cases rest with
        | nil => rfl
        | cons x xs =>
          exfalso
          rcases hx : max_by_size xs with _ | y
          · simp [max_by_size, hx] at hm
          · simp only [max_by_size, hx] at hm
            split at hm <;> simp_all
      subst hrest
      exact ⟨by simp, by simp⟩
    · obtain ⟨hmem, hbound⟩ := ih m hm
      simp only [max_by_size, hm] at h
      split at h
      · obtain rfl := Option.some.inj h
        rename_i hgt
        refine ⟨List.mem_cons_of_mem e hmem, ?_⟩
        intro x hx
        rcases List.mem_cons.mp hx with rfl | hx
        · exact Nat.le_of_lt hgt
        · exact hbound x hx
      · obtain rfl := Option.some.inj h
        rename_i hgt
        refine ⟨by simp, ?_⟩
        intro x hx
        rcases List.mem_cons.mp hx with rfl | hx
        · exact Nat.le_refl _
        · exact Nat.le_trans (hbound x hx) (Nat.le_of_not_lt hgt)

/-- The mtime-maximum helper returns a list member. -/
theorem max_by_mtime_mem :
    ∀ (l : List FileEntry) (c : FileEntry), max_by_mtime l = some c → c ∈ l := by
  intro l
  induction l with
  | nil => intro c h; exact absurd h (by simp [max_by_mtime])
  | cons e rest ih =>
    intro c h
    rcases hm : max_by_mtime rest with _ | m
    · simp only [max_by_mtime, hm] at h
      obtain rfl := Option.some.inj h
      simp
    · simp only [max_by_mtime, hm] at h
      split at h
      · obtain rfl := Option.some.inj h
        exact List.mem_cons_of_mem e (ih m hm)
      · obtain rfl := Option.some.inj h
        simp

/-- A name passing _is_valid_video_file corresponds to a directory
entry with that name satisfying the validity filter. -/
theorem is_valid_video_file_entry (d : DirState) (name : String)
    (h : is_valid_video_file d name = true) :
    ∃ e, e ∈ d.entries ∧ e.name = name ∧ validEntry e = true := by
  rcases hl : d.lookup name with _ | e
  · simp only [is_valid_video_file, hl] at h
    exact absurd h (by simp)
  · simp only [is_valid_video_file, hl] at h
    refine ⟨e, List.mem_of_find?_eq_some hl, ?_, h⟩
    have := List.find?_some hl
    simpa using this

/-- An extension-exact probe hit passed validity and stability. -/
theorem exact_match_spec (env : CacheEnv) (sid : String) :
    ∀ (exts : List String) (name : String), exact_match env sid exts = some name →
      is_valid_video_file env.dir name = true ∧ env.stable name = true := by
  intro exts
  induction exts with
  | nil => intro name h; exact absurd h (by simp [exact_match])
  | cons ext rest ih =>
    intro name h
    simp only [exact_match] at h
    split at h
    · obtain rfl := Option.some.inj h
      rename_i hcond
      simp only [Bool.and_eq_true] at hcond
      exact hcond
    · exact ih name h

/-- Every path the per-identifier cache loop returns points at a valid,
stable directory entry. -/
theorem cache_search_spec (env : CacheEnv) :
    ∀ (ids : List String) (p : String), cache_search env ids = some p →
      ∃ e, e ∈ env.dir.entries ∧ validEntry e = true ∧ env.stable e.name = true ∧
        p = env.tempDir ++ "/" ++ e.name := by
  intro ids
  induction ids with
  | nil => intro p h; exact absurd h (by simp [cache_search])
  | cons sid rest ih =>
    intro p h
    rcases hx : exact_match env sid VIDEO_EXTENSIONS with _ | name
    · rcases hm : max_by_size (prefix_candidates env sid) with _ | cand
      · simp only [cache_search, hx, hm] at h
        exact ih p h
      · simp only [cache_search, hx, hm] at h
        split at h
        · obtain rfl := Option.some.inj h
          rename_i hs
          have hmem := (max_by_size_spec (prefix_candidates env sid) cand hm).1
          have hfilter := List.mem_filter.mp hmem
          have hcond := hfilter.2
          simp only [Bool.and_eq_true] at hcond
          exact ⟨cand, hfilter.1, hcond.2, hs, rfl⟩
        · exact ih p h
    · simp only [cache_search, hx] at h
      obtain rfl := Option.some.inj h
      obtain ⟨hv, hs⟩ := exact_match_spec env sid VIDEO_EXTENSIONS name hx
      obtain ⟨e, he, hname, hval⟩ := is_valid_video_file_entry env.dir name hv
      exact ⟨e, he, hval, by rw [hname]; exact hs, by rw [hname]⟩

/-- Each directory-search pass of file discovery only returns paths of
valid, stable entries of the snapshot it scanned. -/
theorem find_try_ids_spec (env : FindEnv) (t : Nat) :
    ∀ (ids : List String) (p : String), find_try_ids env t ids = some p →
      ∃ e, e ∈ (env.dirAt t).entries ∧ validEntry e = true ∧
        env.stableAt t e.name = true ∧ p = env.searchDir ++ "/" ++ e.name := by
  intro ids
  induction ids with
  | nil => intro p h; exact absurd h (by simp [find_try_ids])
  | cons sid rest ih =>
    intro p h
    rcases hm : max_by_mtime ((env.dirAt t).entries.filter
        (fun e => strIsPrefixOf sid e.name && validEntry e)) with _ | cand
    · simp only [find_try_ids, hm] at h
      exact ih p h
    · simp only [find_try_ids, hm] at h
      split at h
      · obtain rfl := Option.some.inj h
        rename_i hs
        have hmem := max_by_mtime_mem _ cand hm
        have hfilter := List.mem_filter.mp hmem
        have hcond := hfilter.2
        simp only [Bool.and_eq_true] at hcond
        exact ⟨cand, hfilter.1, hcond.2, hs, rfl⟩
      · exact ih p h

/-- The retry loop of file discovery only returns paths of valid,
stable entries of some scanned snapshot. -/
theorem find_loop_spec (env : FindEnv) (ids : List String) :
    ∀ (fuel t : Nat) (p : String), find_loop env ids t fuel = some p →
      ∃ u e, e ∈ (env.dirAt u).entries ∧ validEntry e = true ∧
        env.stableAt u e.name = true ∧ p = env.searchDir ++ "/" ++ e.name := by
  intro fuel
  induction fuel with
  | zero => intro t p h; exact absurd h (by simp [find_loop])
  | succ fuel ih =>
    intro t p h
    rcases hf : find_try_ids env t ids with _ | q
    · simp only [find_loop, hf] at h
      exact ih (t + 1) p h
    · simp only [find_loop, hf] at h
      obtain rfl := Option.some.inj h
      obtain ⟨e, he, hv, hs, hp⟩ := find_try_ids_spec env t ids q hf
      exact ⟨t, e, he, hv, hs, hp⟩

/-- Claim C10.  Every non-None path returned by the cache lookup or by
file discovery has, at the snapshot where it was checked, passed both
the validity filter (exists as a regular file of non-zero size with no
partial or cut marker) and the stability check. -/
theorem c10_discovery_validity_invariant :
    (∀ (env : CacheEnv) (video_id p : String),
      get_cached_video_path env video_id = some p →
      ∃ e, e ∈ env.dir.entries ∧ validEntry e = true ∧ env.stable e.name = true ∧
        p = env.tempDir ++ "/" ++ e.name)
    ∧ (∀ (env : FindEnv) (video_id : String) (n : Nat) (p : String),
      find_downloaded_file env video_id n = some p →
      ∃ t e, e ∈ (env.dirAt t).entries ∧ validEntry e = true ∧
        env.stableAt t e.name = true ∧
        (p = env.searchDir ++ "/" ++ e.name ∨ e.name = baseName p)) := by
  constructor
  · intro env video_id p h
    unfold get_cached_video_path at h
    split at h
    · exact absurd h (by simp)
    · exact cache_search_spec env (search_ids video_id) p h
  · intro env video_id n p h
    rcases ht : env.tracker with _ | q
    · simp only [find_downloaded_file, ht] at h
      obtain ⟨u, e, he, hv, hs, hp⟩ := find_loop_spec env (search_ids video_id) n 0 p h
      exact ⟨u, e, he, hv, hs, Or.inl hp⟩
    · simp only [find_downloaded_file, ht] at h
      split at h
      · obtain rfl := Option.some.inj h
        rename_i hcond
        simp only [Bool.and_eq_true] at hcond
        obtain ⟨e, he, hname, hval⟩ :=
          is_valid_video_file_entry (env.dirAt 0) (baseName q) hcond.1.2
        refine ⟨0, e, he, hval, ?_, Or.inr hname⟩
        rw [hname]
        exact hcond.2
      · obtain ⟨u, e, he, hv, hs, hp⟩ := find_loop_spec env (search_ids video_id) n 0 p h
        exact ⟨u, e, he, hv, hs, Or.inl hp⟩

/-- Witness for C10: the cache hit on cacheEnvHit yields a valid,
stable entry behind the returned path. -/
theorem c10_discovery_validity_invariant_witness :
    ∃ e, e ∈ cacheEnvHit.dir.entries ∧ validEntry e = true ∧
      cacheEnvHit.stable e.name = true ∧
      "/tmp/vid.mp4" = cacheEnvHit.tempDir ++ "/" ++ e.name :=
  c10_discovery_validity_invariant.1 cacheEnvHit "vid" "/tmp/vid.mp4" (by decide)

/-- The extension-exact probe returns the first extension in list order
whose candidate file is valid and stable, ignoring later extensions
regardless of their candidates' sizes. -/
theorem exact_match_first (env : CacheEnv) (sid : String) :
    ∀ (pre post : List String) (ext : String),
      (∀ e ∈ pre, (is_valid_video_file env.dir (sid ++ "." ++ e) &&
        env.stable (sid ++ "." ++ e)) = false) →
      (is_valid_video_file env.dir (sid ++ "." ++ ext) &&
        env.stable (sid ++ "." ++ ext)) = true →
      exact_match env sid (pre ++ ext :: post) = some (sid ++ "." ++ ext) := by
  intro pre
  induction pre with
  | nil =>
    intro post ext _ hhit
    simp [exact_match, hhit]
  | cons e0 pre ih =>
    intro post ext hmiss hhit
    have h0 := hmiss e0 (by simp)
    simp only [List.cons_append, exact_match, h0]
    simp only [Bool.false_eq_true, if_false]
    exact ih post ext (fun e he => hmiss e (by simp [he])) hhit

/-- Claim C4 (amended).  Among extension-exact matches the cache lookup
returns the first valid and stable candidate in the fixed
extension-list order, with no size comparison; when the extension-exact
probe misses and the prefix glob has valid candidates, it prefers the
largest candidate by size: it returns that candidate's path when it is
stable, and otherwise moves on to the next identifier without trying
the other prefix candidates. -/
theorem c4_cache_preference :
    (∀ (env : CacheEnv) (video_id sid : String) (rest pre post : List String)
        (ext : String),
      env.tempDirExists = true →
      search_ids video_id = sid :: rest →
      VIDEO_EXTENSIONS = pre ++ ext :: post →
      (∀ e ∈ pre, (is_valid_video_file env.dir (sid ++ "." ++ e) &&
        env.stable (sid ++ "." ++ e)) = false) →
      (is_valid_video_file env.dir (sid ++ "." ++ ext) &&
        env.stable (sid ++ "." ++ ext)) = true →
      get_cached_video_path env video_id =
        some (env.tempDir ++ "/" ++ (sid ++ "." ++ ext)))
    ∧ (∀ (env : CacheEnv) (video_id sid : String) (rest : List String) (c : FileEntry),
      env.tempDirExists = true →
      search_ids video_id = sid :: rest →
      exact_match env sid VIDEO_EXTENSIONS = none →
      max_by_size (prefix_candidates env sid) = some c →
      (env.stable c.name = true →
        get_cached_video_path env video_id = some (env.tempDir ++ "/" ++ c.name))
      ∧ (env.stable c.name = false →
        get_cached_video_path env video_id = cache_search env rest)
      ∧ c ∈ prefix_candidates env sid
      ∧ (∀ e ∈ prefix_candidates env sid, e.size ≤ c.size)) := by
  constructor
  · intro env video_id sid rest pre post ext hTd hIds hexts hmiss hhit
    have hbase : get_cached_video_path env video_id = cache_search env (sid :: rest) := by
      unfold get_cached_video_path
      rw [hTd, hIds]
      rfl
    have hfirst := exact_match_first env sid pre post ext hmiss hhit
    rw [hbase]
    simp only [cache_search, hexts, hfirst]
  · intro env video_id sid rest c hTd hIds hEx hMax
    have hspec := max_by_size_spec (prefix_candidates env sid) c hMax
    have hbase : get_cached_video_path env video_id = cache_search env (sid :: rest) := by
      unfold get_cached_video_path
      rw [hTd, hIds]
      rfl
    refine ⟨?_, ?_, hspec.1, hspec.2⟩
    · intro hs
      rw [hbase]
      simp only [cache_search, hEx, hMax, hs]
      rfl
    · intro hs
      rw [hbase]
      simp only [cache_search, hEx, hMax, hs]
      rfl

/-- Witness for C4 amended: the extension-exact branch on cacheEnvHit
returns the first (and here only) hit in extension order, and the
prefix branch on cacheEnvC4 returns the largest candidate vid.foo,
which dominates every candidate by size. -/
theorem c4_cache_preference_witness :
    get_cached_video_path cacheEnvHit "vid" =
      some ("/tmp" ++ "/" ++ ("vid" ++ "." ++ "mp4"))
    ∧ get_cached_video_path cacheEnvC4 "vid" = some ("/tmp" ++ "/" ++ "vid.foo")
    ∧ ∀ e ∈ prefix_candidates cacheEnvC4 "vid", e.size ≤ 100 := by
  have h1 := c4_cache_preference.1 cacheEnvHit "vid" "vid" [] []
    ["webm", "mkv", "m4a", "flv", "avi", "mov"] "mp4"
    rfl (by decide) (by decide) (by intro e he; simp at he) (by decide)
  have h2 := c4_cache_preference.2 cacheEnvC4 "vid" "vid" []
    { name := "vid.foo", isFile := true, size := 100, mtime := 1 }
    rfl (by decide) (by decide) (by decide)
  exact ⟨h1, h2.1 rfl, h2.2.2.2⟩

/-- A boolean whose negation test failed is true. -/
theorem eq_true_of_not_bang (b : Bool) (h : ¬ (!b) = true) : b = true := by
  cases b with
  | false => exact absurd rfl h
  | true => rfl

/-- A success result can only come out of the final verification with
the existence, regular-file and non-zero-size observations all
positive, carrying the destination path and the observed size. -/
theorem dv_finalize_success (env : DVEnv) (vi : VideoInfo)
    (original final : String) (r : DownloadResult)
    (h : dv_finalize env vi original final = r) (hs : r.success = true) :
    env.finalExists = true ∧ env.finalIsFile = true ∧
    r.file_path = some final ∧
    ∃ n, env.finalSize = Except.ok n ∧ 0 < n ∧ r.file_size = some n := by
  unfold dv_finalize at h
  split at h
  · obtain rfl := h.symm
    simp [failResult] at hs
  · rename_i hff
    split at h
    · obtain rfl := h.symm
      simp [failResult] at hs
    · rename_i n hsz
      split at h
      · obtain rfl := h.symm
        simp [failResult] at hs
      · rename_i hzero
        obtain rfl := h.symm
        have hff2 := eq_true_of_not_bang _ hff
        simp only [Bool.and_eq_true] at hff2
        exact ⟨hff2.1, hff2.2, rfl, n, hsz, by omega, rfl⟩

/-- A success result passes the copy-or-cut stage only through the
final verification, and when a cut was requested only after the
destination and the preserved full asset were re-verified. -/
theorem dv_process_success (env : DVEnv) (vi : VideoInfo) (out : String)
    (nc us : Bool) (orig : String) (r : DownloadResult)
    (h : dv_process env vi out nc us orig = r) (hs : r.success = true) :
    dv_finalize env vi orig out = r ∧
    (nc = true → env.outputExistsPostCut = true ∧ env.originalExistsPostCut = true ∧
      env.originalValidPostCut = true) := by
  unfold dv_process at h
  split at h
  · obtain rfl := h.symm
    simp [failResult] at hs
  · split at h
    · split at h
      · obtain rfl := h.symm
        simp [failResult] at hs
      · split at h
        · split at h
          · obtain rfl := h.symm
            simp [failResult] at hs
          · split at h
            · obtain rfl := h.symm
              simp [failResult] at hs
            · split at h
              · obtain rfl := h.symm
                simp [failResult] at hs
              · rename_i hout horig
                have hout2 := eq_true_of_not_bang _ hout
                have horig2 := eq_true_of_not_bang _ horig
                simp only [Bool.and_eq_true] at horig2
                exact ⟨h, fun _ => ⟨hout2, horig2.1, horig2.2⟩⟩
        · split at h
          · obtain rfl := h.symm
            simp [failResult] at hs
          · split at h
            · obtain rfl := h.symm
              simp [failResult] at hs
            · split at h
              · obtain rfl := h.symm
                simp [failResult] at hs
              · rename_i hout horig
                have hout2 := eq_true_of_not_bang _ hout
                have horig2 := eq_true_of_not_bang _ horig
                simp only [Bool.and_eq_true] at horig2
                exact ⟨h, fun _ => ⟨hout2, horig2.1, horig2.2⟩⟩
    · rename_i hnc
      split at h
      · obtain rfl := h.symm
        simp [failResult] at hs
      · exact ⟨h, fun hnc2 => absurd hnc2 hnc⟩

/-- A success result passes the temp-placement stage only into the
copy-or-cut stage, for some path of the full asset. -/
theorem dv_tail_success (env : DVEnv) (vi : VideoInfo) (out : String)
    (nc us : Bool) (o0 : String) (r : DownloadResult)
    (h : dv_tail env vi out nc us o0 = r) (hs : r.success = true) :
    ∃ orig, dv_process env vi out nc us orig = r := by
  unfold dv_tail at h
  split at h
  · obtain rfl := h.symm
    simp [failResult] at hs
  · split at h
    · split at h
      · exact ⟨_, h⟩
      · split at h
        · obtain rfl := h.symm
          simp [failResult] at hs
        · split at h
          · obtain rfl := h.symm
            simp [failResult] at hs
          · exact ⟨_, h⟩
    · split at h
      · obtain rfl := h.symm
        simp [failResult] at hs
      · exact ⟨_, h⟩

/-- A success result of download_video always reaches the shared tail
with the computed cut decisions. -/
theorem download_video_success_cases (env : DVEnv) (out q : String)
    (st et : Option Int) (secs : Option (List (Option Int × Option Int)))
    (r : DownloadResult)
    (h : download_video env out q st et secs = Except.ok r) (hs : r.success = true) :
    ∃ vi o0, env.video_info = some vi ∧
      dv_tail env vi out (needs_cut_of st et secs) (use_sections_of secs) o0 = r := by
  unfold download_video at h
  rcases hval : env.validateOutputRaises with _ | e0
  · simp only [hval] at h
    rcases hvi : env.video_info with _ | vi
    · simp only [hvi] at h
      obtain rfl := (Except.ok.inj h).symm
      simp [failResult] at hs
    · simp only [hvi] at h
      rcases hsan : sanitize_video_id vi.id with e1 | sv
      · simp only [hsan] at h
        obtain rfl := (Except.ok.inj h).symm
        simp [failResult] at hs
      · simp only [hsan] at h
        rcases hcache : get_cached_video_path env.cacheEnv vi.id with _ | cached
        · simp only [hcache] at h
          rcases hloop : format_selector_loop env.attempt (format_selectors q) 0 none with
            ⟨lastE, tried⟩ | ⟨lastE, tried⟩ | ⟨msg, tried⟩
          · simp only [hloop] at h
            rcases lastE with _ | e2
            · simp only [] at h
              rcases hexc : env.findExc with _ | e3
              · simp only [hexc] at h
                rcases hfind : find_downloaded_file env.findEnv vi.id MAX_FILE_FIND_RETRIES
                  with _ | found
                · simp only [hfind] at h
                  split at h
                  · obtain rfl := (Except.ok.inj h).symm
                    simp [failResult] at hs
                  · obtain rfl := (Except.ok.inj h).symm
                    simp [failResult] at hs
                · simp only [hfind] at h
                  exact ⟨vi, found, rfl, Except.ok.inj h⟩
              · simp only [hexc] at h
                obtain rfl := (Except.ok.inj h).symm
                simp [failResult] at hs
            · simp only [] at h
              obtain rfl := (Except.ok.inj h).symm
              simp [failResult] at hs
          · simp only [hloop] at h
            rcases lastE with _ | e2
            · simp only [] at h
              rcases hexc : env.findExc with _ | e3
              · simp only [hexc] at h
                rcases hfind : find_downloaded_file env.findEnv vi.id MAX_FILE_FIND_RETRIES
                  with _ | found
                · simp only [hfind] at h
                  split at h
                  · obtain rfl := (Except.ok.inj h).symm
                    simp [failResult] at hs
                  · obtain rfl := (Except.ok.inj h).symm
                    simp [failResult] at hs
                · simp only [hfind] at h
                  exact ⟨vi, found, rfl, Except.ok.inj h⟩
              · simp only [hexc] at h
                obtain rfl := (Except.ok.inj h).symm
                simp [failResult] at hs
            · simp only [] at h
              obtain rfl := (Except.ok.inj h).symm
              simp [failResult] at hs
          · simp only [hloop] at h
            exact absurd h (by simp)
        · simp only [hcache] at h
          split at h
          · obtain rfl := (Except.ok.inj h).symm
            simp [failResult] at hs
          · exact ⟨vi, cached, rfl, Except.ok.inj h⟩
  · simp only [hval] at h
    obtain rfl := (Except.ok.inj h).symm
    simp [failResult] at hs

/-- Claim C2 (amended).  Whenever download_video returns success, the
final verification observed the destination to exist, to be a regular
file and to have non-zero size, and the result carries the destination
path and that size; no partial-marker test is applied to the
destination path. -/
theorem c2_success_final_verification (env : DVEnv) (out q : String)
    (st et : Option Int) (secs : Option (List (Option Int × Option Int)))
    (r : DownloadResult)
    (hr : download_video env out q st et secs = Except.ok r)
    (hs : r.success = true) :
    env.finalExists = true ∧ env.finalIsFile = true ∧
    r.file_path = some out ∧
    ∃ n, env.finalSize = Except.ok n ∧ 0 < n ∧ r.file_size = some n := by
  obtain ⟨vi, o0, -, htail⟩ := download_video_success_cases env out q st et secs r hr hs
  obtain ⟨orig, hproc⟩ := dv_tail_success env vi out _ _ o0 r htail hs
  obtain ⟨hfin, -⟩ := dv_process_success env vi out _ _ orig r hproc hs
  exact dv_finalize_success env vi orig out r hfin hs

/-- Witness for C2 amended at the healthy cache-hit environment. -/
theorem c2_success_final_verification_witness :
    dvEnvHappy.finalExists = true ∧ dvEnvHappy.finalIsFile = true ∧
    (DownloadResult.mk true (some "/out/ok.mp4") (some 5) none (some viEx)
      (some "/tmp/vid.mp4")).file_path = some "/out/ok.mp4" ∧
    ∃ n, dvEnvHappy.finalSize = Except.ok n ∧ 0 < n ∧
      (DownloadResult.mk true (some "/out/ok.mp4") (some 5) none (some viEx)
        (some "/tmp/vid.mp4")).file_size = some n :=
  c2_success_final_verification dvEnvHappy "/out/ok.mp4" "best" none none none
    (DownloadResult.mk true (some "/out/ok.mp4") (some 5) none (some viEx)
      (some "/tmp/vid.mp4")) (by rfl) rfl

/-- Claim C9.  When a cut was requested, download_video can only report
success after re-verifying that the destination was produced and that
the full asset in the shared temp directory still exists and is valid:
only the destination receives the clipped result (file_path is the
destination path) and a lost cache asset forces a failure instead. -/
theorem c9_cache_preserved_after_cut (env : DVEnv) (out q : String)
    (st et : Option Int) (secs : Option (List (Option Int × Option Int)))
    (r : DownloadResult)
    (hr : download_video env out q st et secs = Except.ok r)
    (hs : r.success = true)
    (hc : needs_cut_of st et secs = true) :
    env.outputExistsPostCut = true ∧ env.originalExistsPostCut = true ∧
    env.originalValidPostCut = true ∧ r.file_path = some out := by
  obtain ⟨vi, o0, -, htail⟩ := download_video_success_cases env out q st et secs r hr hs
  obtain ⟨orig, hproc⟩ := dv_tail_success env vi out _ _ o0 r htail hs
  obtain ⟨hfin, hcut⟩ := dv_process_success env vi out _ _ orig r hproc hs
  obtain ⟨h1, h2, h3⟩ := hcut hc
  obtain ⟨-, -, hfp, -⟩ := dv_finalize_success env vi orig out r hfin hs
  exact ⟨h1, h2, h3, hfp⟩

/-- Witness for C9: a cache-hit trim on the healthy environment with a
single (0, 30) range succeeds and the post-cut observations hold. -/
theorem c9_cache_preserved_after_cut_witness :
    dvEnvHappy.outputExistsPostCut = true ∧
    dvEnvHappy.originalExistsPostCut = true ∧
    dvEnvHappy.originalValidPostCut = true ∧
    (DownloadResult.mk true (some "/out/c.mp4") (some 5) none (some viEx)
      (some "/tmp/vid.mp4")).file_path = some "/out/c.mp4" :=
  c9_cache_preserved_after_cut dvEnvHappy "/out/c.mp4" "best" (some 0) (some 30) none
    (DownloadResult.mk true (some "/out/c.mp4") (some 5) none (some viEx)
      (some "/tmp/vid.mp4")) (by rfl) rfl (by rfl)

/-- A fatal outcome at position k after k retryable outcomes makes the
format loop re-raise after exactly k + 1 attempts. -/
theorem format_selector_loop_raised_of (attempt : Nat → AttemptOutcome) :
    ∀ (sels : List String) (i k : Nat) (last : Option String) (msg : String),
      k < sels.length →
      (∀ j, j < k → retryable_outcome (attempt (i + j))) →
      attempt (i + k) = AttemptOutcome.downloadError msg →
      is_format_unavailable_error msg = false →
      is_forbidden_error msg = false →
      format_selector_loop attempt sels i last = LoopResult.raised msg (i + k + 1) := by
  intro sels
  induction sels with
  | nil =>
    intro i k last msg hk _ _ _ _
    exact absurd hk (by simp)
  | cons sel rest ih =>
    intro i k last msg hk hprev hfatal h1 h2
    cases k with
    | zero =>
      have hi : attempt i = AttemptOutcome.downloadError msg := by simpa using hfatal
      simp [format_selector_loop, hi, h1, h2]
    | succ k2 =>
      obtain ⟨m, hm, hcls⟩ := hprev 0 (by omega)
      have hm2 : attempt i = AttemptOutcome.downloadError m := by simpa using hm
      have step : format_selector_loop attempt (sel :: rest) i last =
          format_selector_loop attempt rest (i + 1) (some m) := by
        rcases Bool.eq_false_or_eq_true (is_format_unavailable_error m) with hu | hu
        · simp [format_selector_loop, hm2, hu]
        · rcases hcls with hc | hc
          · rw [hu] at hc
            exact absurd hc (by simp)
          · simp [format_selector_loop, hm2, hu, hc]
      rw [step]
      have hfatal2 : attempt (i + 1 + k2) = AttemptOutcome.downloadError msg := by
        have hidx : i + 1 + k2 = i + (k2 + 1) := by omega
        rw [hidx]
        exact hfatal
      have hres := ih (i + 1) k2 (some m) msg
        (by simp only [List.length_cons] at hk; omega)
        (fun j hj => by
          have hpj := hprev (j + 1) (by omega)
          have hidx : i + (j + 1) = i + 1 + j := by omega
          rwa [hidx] at hpj) hfatal2 h1 h2
      rw [hres]
      congr 1
      omega

/-- Claim C3 (amended).  During the format-preference loop, a download
failure that is neither format-unavailable nor forbidden aborts the
loop immediately after its own attempt - no later preference is tried -
and the exception propagates out of download_video (Except.error)
rather than being converted into a failure DownloadResult. -/
theorem c3_fatal_error_propagates (attempt : Nat → AttemptOutcome)
    (sels : List String) (k : Nat) (msg : String)
    (hk : k < sels.length)
    (hprev : ∀ j, j < k → retryable_outcome (attempt j))
    (hfatal : attempt k = AttemptOutcome.downloadError msg)
    (h1 : is_format_unavailable_error msg = false)
    (h2 : is_forbidden_error msg = false) :
    format_selector_loop attempt sels 0 none = LoopResult.raised msg (k + 1)
    ∧ ∀ (env : DVEnv) (out q : String) (st et : Option Int)
        (secs : Option (List (Option Int × Option Int))) (vi : VideoInfo),
        env.attempt = attempt → format_selectors q = sels →
        env.validateOutputRaises = none → env.video_info = some vi →
        (∃ s, sanitize_video_id vi.id = Except.ok s) →
        get_cached_video_path env.cacheEnv vi.id = none →
        download_video env out q st et secs = Except.error msg := by
  have hloop : format_selector_loop attempt sels 0 none = LoopResult.raised msg (k + 1) := by
    have hres := format_selector_loop_raised_of attempt sels 0 k none msg hk
      (fun j hj => by simpa using hprev j hj) (by simpa using hfatal) h1 h2
    simpa using hres
  refine ⟨hloop, ?_⟩
  intro env out q st et secs vi hatt hsels hval hvi hsan hcache
  obtain ⟨sv, hsv⟩ := hsan
  unfold download_video
  simp only [hval, hvi, hsv, hcache, hatt, hsels, hloop]

/-- Witness for C3 amended: the concrete fatal outcome on the first
preference aborts after one attempt and escapes as an exception. -/
theorem c3_fatal_error_propagates_witness :
    format_selector_loop attemptC3 (format_selectors "q") 0 none =
      LoopResult.raised "Private video" 1
    ∧ download_video dvEnvC3 "/out/w.mp4" "q" none none none =
        Except.error "Private video" := by
  have h := c3_fatal_error_propagates attemptC3 (format_selectors "q") 0 "Private video"
    (by decide) (fun j hj => absurd hj (by omega)) rfl (by decide) (by decide)
  exact ⟨h.1, h.2 dvEnvC3 "/out/w.mp4" "q" none none none viEx rfl rfl rfl rfl
    ⟨"vid", by rfl⟩ (by decide)⟩

end Downloader
